import Mathlib

/-!
Shallow embedding of the `app-info` crate (src/lib.rs, src/error.rs,
src/macos.rs, src/window.rs).

OS collaborators (filesystem, registry, Cocoa drawing, WIC imaging) are
modelled as explicit parameters: boolean success flags for calls that can
fail, oracles (functions) for data the OS produces.  Every Rust function
that the claims touch is translated to a Lean definition of the same name;
`u16` sizes become `Nat`, `Vec<u8>` becomes `List Nat`, `Result<T>` becomes
`Except AppInfoError T`, `Option<T>` becomes `Option T`.
-/

namespace AppInfoCrate

/-- Byte of pixel data (`u8` in the source). -/
abbrev Byte := Nat

/-- `error.rs`: `FileIconError`. -/
inductive FileIconError where
  | pathDoesNotExist
  | nullIconSize
  | failed
  | platformNotSupported
deriving DecidableEq, Repr

/-- `error.rs`: `AppInfoError`. -/
inductive AppInfoError where
  | directoryReadError (msg : String)
  | bundleParseError (path : String)
  | plistError (msg : String)
  | registryError (msg : String)
  | appNotFound (name : String)
  | unsupportedPlatform
  | fileIconError (e : FileIconError)
deriving DecidableEq, Repr

/-- `lib.rs`: `Icon` — raw RGBA bitmap. -/
structure Icon where
  width : Nat
  height : Nat
  pixels : List Byte
deriving DecidableEq, Repr

/-- `lib.rs`: `AppInfo`.  `path: PathBuf` is modelled as a `String`. -/
structure AppInfo where
  name : String
  version : Option String
  path : String
  icon : Option Icon
  identifier : Option String
  publisher : Option String
  install_date : Option String
deriving DecidableEq, Repr

/-- Rust `char::to_ascii_lowercase` / the ASCII part of `char::to_lowercase`:
maps `A`–`Z` to `a`–`z`, leaves everything else alone. -/
def asciiLowerChar (c : Char) : Char :=
  if c.toNat ≥ 65 ∧ c.toNat ≤ 90 then Char.ofNat (c.toNat + 32) else c

/-- Lower-casing of a whole string, character-wise. -/
def asciiLowerStr (s : String) : String :=
  ⟨s.data.map asciiLowerChar⟩

/-- Rust `str::eq_ignore_ascii_case`: equality after ASCII-lower-casing both
sides (byte-wise in Rust; on the char level this is the same function, since
non-ASCII code points are untouched by ASCII lower-casing). -/
def eq_ignore_ascii_case (a b : String) : Bool :=
  asciiLowerStr a == asciiLowerStr b

/-- `lib.rs`: `get_file_icon(path, size)`.  `fs_exists` models
`std::path::Path::exists`; `extract` models the `cfg`-selected platform
extractor (`macos::get_file_icon` / `window::get_file_icon`).  The source
checks `!path.exists()` first and `size == 0` second, in that order. -/
def get_file_icon (fs_exists : String → Bool)
    (extract : String → Nat → Except AppInfoError Icon)
    (path : String) (size : Nat) : Except AppInfoError Icon :=
  if !(fs_exists path) then
    .error (.fileIconError .pathDoesNotExist)
  else if size == 0 then
    .error (.fileIconError .nullIconSize)
  else
    extract path size

/-- `lib.rs`: `find_app_by_name(name, icon_size)`.  `discover` models
`get_installed_apps` (the `cfg`-selected platform discovery). -/
def find_app_by_name (discover : Nat → Except AppInfoError (List AppInfo))
    (name : String) (icon_size : Nat) : Except AppInfoError AppInfo :=
  match discover icon_size with
  | .error e => .error e
  | .ok apps =>
    match apps.find? (fun app => eq_ignore_ascii_case app.name name) with
    | some app => .ok app
    | none => .error (.appNotFound name)

/-! ## macOS implementation (`macos.rs`) -/

namespace Macos

/-- A value of the parsed property list (the `plist::Value` of the `plist`
crate, restricted to the shapes `parse_app_bundle` inspects: `as_string`,
`as_dictionary`). -/
inductive PValue where
  | str (s : String)
  | dict (entries : List (String × PValue))
  | other
deriving Repr

/-- `plist::Value::as_string`. -/
def PValue.as_string : PValue → Option String
  | .str s => some s
  | _ => none

/-- `plist::Value::as_dictionary` (a dictionary is a key/value list; the
crate lookup `Dictionary::get` is key lookup). -/
def PValue.as_dictionary : PValue → Option (List (String × PValue))
  | .dict entries => some entries
  | _ => none

/-- Outcome of reading `Contents/Info.plist` of one bundle: the file may be
missing (`!info_plist_path.exists()`), `fs::read` may fail with an I/O
error, `plist::from_bytes` may fail, or a plist value is produced. -/
inductive PlistFile where
  | missing
  | unreadable (ioMsg : String)
  | malformed (errMsg : String)
  | content (v : PValue)

/-- One candidate `.app` entry of a scanned directory, together with the OS
answers `parse_app_bundle` consumes for it: `path.extension()`,
`path.file_stem()` (already `to_str`ed), `path.display().to_string()`, the
`Info.plist` contents, and `get_file_icon(app_path, icon_size).ok()` as an
oracle from the requested size. -/
structure MacBundle where
  extension : Option String
  file_stem : Option String
  pathStr : String
  plist : PlistFile
  iconOracle : Nat → Option Icon

/-- `macos.rs`: `parse_app_bundle(app_path, icon_size)`. -/
def parse_app_bundle (b : MacBundle) (icon_size : Nat) : Except AppInfoError AppInfo :=
  match b.plist with
  | .missing => .error (.bundleParseError b.pathStr)
  | .unreadable e => .error (.directoryReadError e)
  | .malformed e => .error (.plistError e)
  | .content v =>
    match v.as_dictionary with
    | none => .error (.plistError "Invalid plist format")
    | some dict =>
      let name :=
        match ((match dict.lookup "CFBundleDisplayName" with
                | some v => some v
                | none => dict.lookup "CFBundleName").bind PValue.as_string) with
        | some s => s
        | none => b.file_stem.getD "Unknown"
      let version := (dict.lookup "CFBundleShortVersionString").bind PValue.as_string
      let identifier := (dict.lookup "CFBundleIdentifier").bind PValue.as_string
      let icon := if icon_size > 0 then b.iconOracle icon_size else none
      .ok { name := name, version := version, path := b.pathStr, icon := icon,
            identifier := identifier, publisher := none, install_date := none }

/-- `macos.rs`: the body of the `for` loop in `scan_directory` over
`fs::read_dir(dir)?`: each iterator item is itself a `Result` (`entry?`
propagates), then `.app` entries are parsed and kept only on `Ok`. -/
def scan_entries (icon_size : Nat) :
    List (Except String MacBundle) → Except AppInfoError (List AppInfo)
  | [] => .ok []
  | .error e :: _ => .error (.directoryReadError e)
  | .ok b :: rest =>
    if b.extension == some "app" then
      match parse_app_bundle b icon_size with
      | .ok app_info => (scan_entries icon_size rest).map (fun apps => app_info :: apps)
      | .error _ => scan_entries icon_size rest
    else
      scan_entries icon_size rest

/-- `macos.rs`: `scan_directory(dir, icon_size)`.  `listing` models
`fs::read_dir(dir)`. -/
def scan_directory (listing : Except String (List (Except String MacBundle)))
    (icon_size : Nat) : Except AppInfoError (List AppInfo) :=
  match listing with
  | .error e => .error (.directoryReadError e)
  | .ok entries => scan_entries icon_size entries

/-- The macOS filesystem as seen by `macos::get_installed_apps`: each of the
three scanned directories is `none` when absent (`/Applications`,
`/System/Applications` failing `.exists()`, or `$HOME` unset / the user
directory absent), otherwise carries its `read_dir` outcome. -/
structure MacFS where
  applications : Option (Except String (List (Except String MacBundle)))
  systemApplications : Option (Except String (List (Except String MacBundle)))
  userApplications : Option (Except String (List (Except String MacBundle)))

/-- Scan of one optional directory inside `macos::get_installed_apps`:
absent directories are skipped (contribute nothing), present ones are
scanned with `?`-propagation. -/
def scanOptDir (d : Option (Except String (List (Except String MacBundle))))
    (icon_size : Nat) : Except AppInfoError (List AppInfo) :=
  match d with
  | none => .ok []
  | some listing => scan_directory listing icon_size

/-- `macos.rs`: `get_installed_apps(icon_size)`. -/
def get_installed_apps (fs : MacFS) (icon_size : Nat) :
    Except AppInfoError (List AppInfo) :=
  match scanOptDir fs.applications icon_size with
  | .error e => .error e
  | .ok l1 =>
    match scanOptDir fs.systemApplications icon_size with
    | .error e => .error e
    | .ok l2 =>
      match scanOptDir fs.userApplications icon_size with
      | .error e => .error e
      | .ok l3 => .ok (l1 ++ l2 ++ l3)

/-- The `NSBitmapImageRep` created by `macos::get_file_icon`, with the
fields its `init` call fixes: `pixelsWide: size`, `pixelsHigh: size`,
`bytesPerRow: size * 4` (non-planar, 32 bits per pixel). -/
structure NSBitmapImageRep where
  pixelsWide : Nat
  pixelsHigh : Nat
  bytesPerRow : Nat

/-- AppKit collaborator: for a non-planar bitmap rep, `bytesPerPlane`
is `bytesPerRow * pixelsHigh`. -/
def NSBitmapImageRep.bytesPerPlane (r : NSBitmapImageRep) : Nat :=
  r.bytesPerRow * r.pixelsHigh

/-- The Cocoa collaborators `macos::get_file_icon` calls, as oracles:
`canonicalize` (`none` = error), `to_str` on the canonical path (`none` =
non-UTF-8), whether `graphicsContextWithBitmapImageRep` returns a context,
and the bitmap plane bytes after drawing (`bitmapData`), indexed by
rendered path, requested size and byte offset. -/
structure MacIconOS where
  canonicalize : String → Option String
  to_str : String → Option String
  contextOk : Bool
  bitmapData : String → Nat → Nat → Byte

/-- `macos.rs`: `get_file_icon(path, size)`. -/
def get_file_icon (os : MacIconOS) (path : String) (size : Nat) :
    Except AppInfoError Icon :=
  match os.canonicalize path with
  | none => .error (.fileIconError .pathDoesNotExist)
  | some canonical_path =>
    match os.to_str canonical_path with
    | none => .error (.fileIconError .failed)
    | some file_path =>
      let bitmap_representation : NSBitmapImageRep :=
        { pixelsWide := size, pixelsHigh := size, bytesPerRow := size * 4 }
      if os.contextOk then
        let pixels := (List.range bitmap_representation.bytesPerPlane).map
          (os.bitmapData file_path size)
        .ok { width := size, height := size, pixels := pixels }
      else
        .error (.fileIconError .failed)

end Macos

/-! ## Windows implementation (`window.rs`) -/

namespace Window

/-- `a` occurs as a leading segment of `b` (Rust `str::starts_with` on the
char level). -/
def isPrefixList : List Char → List Char → Bool
  | [], _ => true
  | _ :: _, [] => false
  | a :: as_, b :: bs => a == b && isPrefixList as_ bs

/-- `pat` occurs as a contiguous segment of `s` (Rust `str::contains` with a
string pattern, on the char level). -/
def containsSeg : List Char → List Char → Bool
  | s, pat =>
    isPrefixList pat s ||
      match s with
      | [] => false
      | _ :: rest => containsSeg rest pat

/-- A directory entry path as `find_main_executable` and
`parse_registry_app` observe it: the full path (for identity and for the
recursive `get_file_icon` call), `file_stem().and_then(to_str)` and
`extension().and_then(to_str)`. -/
structure WinPath where
  full : String
  file_stem : Option String
  extension : Option String
deriving DecidableEq, Repr

/-- The Windows filesystem/OS as seen by discovery: `Path::exists`,
`fs::read_dir` (`none` = `Err`; erroring iterator items are dropped by the
source does `entries.flatten()`, so a listing is just the `Ok` entries), and
`get_file_icon(path, size).ok()` as an oracle. -/
structure WinFS where
  pathExists : String → Bool
  readDir : String → Option (List WinPath)
  getFileIconOk : String → Nat → Option Icon

/-- The uninstaller filter of `find_main_executable`: the `filter` closure,
which keeps a path unless its lower-cased file stem contains `"unins"`,
`"uninst"`, `"uninstall"` or `"remove"`, or starts with `"un"`; a path with
no UTF-8 file stem is kept. -/
def keepExe (p : WinPath) : Bool :=
  match p.file_stem with
  | some name =>
    let name_lower := asciiLowerStr name
    !(containsSeg name_lower.data "unins".data) &&
    !(containsSeg name_lower.data "uninst".data) &&
    !(containsSeg name_lower.data "uninstall".data) &&
    !(containsSeg name_lower.data "remove".data) &&
    !(isPrefixList "un".data name_lower.data)
  | none => true

/-- `path.extension().and_then(|s| s.to_str()) == Some("exe")`. -/
def isExe (p : WinPath) : Bool :=
  p.extension == some "exe"

/-- `window.rs`: `find_main_executable(install_dir)`. -/
def find_main_executable (fs : WinFS) (install_dir : String) : Option WinPath :=
  if !(fs.pathExists install_dir) then none
  else
    match fs.readDir install_dir with
    | none => none
    | some entries =>
      let exe_files := entries.filter isExe
      let filtered_exes := exe_files.filter keepExe
      match filtered_exes.head? with
      | some p => some p
      | none =>
        match fs.readDir install_dir with
        | none => none
        | some entries2 => (entries2.filter isExe).head?

/-- One registry subkey under an uninstall key, with the string values
`parse_registry_app` queries (`none` = `read_registry_string` failed) and
whether re-opening the subkey succeeds. -/
structure WinSubkey where
  openOk : Bool
  displayName : Option String
  displayVersion : Option String
  publisher : Option String
  installLocation : Option String
  installDate : Option String
  displayIcon : Option String

/-- The characters of a string before the first comma (Rust
`icon_str.split(comma).next().unwrap_or(empty)`). -/
def takeBeforeComma : List Char → List Char
  | [] => []
  | c :: rest => if c == ',' then [] else c :: takeBeforeComma rest

/-- The `(app_path, icon_path)` pair computed from `InstallLocation` via
`find_main_executable`, with the source pattern
`map_or((PathBuf::new(), None), |p| (p.clone(), Some(p)))`. -/
def pathsFromInstallLocation (fs : WinFS) (install_location : Option String) :
    String × Option String :=
  match install_location.bind (fun loc => find_main_executable fs loc) with
  | some p => (p.full, some p.full)
  | none => ("", none)

/-- `window.rs`: `parse_registry_app(key_path, icon_size)`. -/
def parse_registry_app (fs : WinFS) (k : WinSubkey) (icon_size : Nat) :
    Except AppInfoError AppInfo :=
  if !k.openOk then
    .error (.registryError "Failed to open registry key")
  else
    match k.displayName with
    | none => .error (.registryError "Failed to read registry value")
    | some display_name =>
      let pathPair : String × Option String :=
        match k.displayIcon with
        | some icon_str =>
          let path_part := (String.mk (takeBeforeComma icon_str.data)).trim
          if fs.pathExists path_part then (path_part, some path_part)
          else pathsFromInstallLocation fs k.installLocation
        | none => pathsFromInstallLocation fs k.installLocation
      let icon :=
        if icon_size > 0 then
          pathPair.2.bind (fun path => fs.getFileIconOk path icon_size)
        else none
      .ok { name := display_name, version := k.displayVersion,
            path := pathPair.1, icon := icon, identifier := none,
            publisher := k.publisher, install_date := k.installDate }

/-- `window.rs`: the subkey-enumeration loop of `scan_registry_key`: each
subkey is parsed, `Ok` results pushed, `Err` results skipped. -/
def scan_subkeys (fs : WinFS) (icon_size : Nat) : List WinSubkey → List AppInfo
  | [] => []
  | k :: rest =>
    match parse_registry_app fs k icon_size with
    | .ok app_info => app_info :: scan_subkeys fs icon_size rest
    | .error _ => scan_subkeys fs icon_size rest

/-- `window.rs`: `scan_registry_key(key_path, icon_size)`.  `key` is `none`
when `RegOpenKeyExW` fails, in which case the source returns `Ok(vec![])`. -/
def scan_registry_key (fs : WinFS) (key : Option (List WinSubkey))
    (icon_size : Nat) : Except AppInfoError (List AppInfo) :=
  match key with
  | none => .ok []
  | some subkeys => .ok (scan_subkeys fs icon_size subkeys)

/-- The two registry locations `window::get_installed_apps` walks. -/
structure WinRegistry where
  uninstall : Option (List WinSubkey)
  uninstallWow64 : Option (List WinSubkey)

/-- `window.rs`: `get_installed_apps(icon_size)` (64-bit build: both the
native and the WOW6432Node uninstall keys are walked). -/
def get_installed_apps (fs : WinFS) (reg : WinRegistry) (icon_size : Nat) :
    Except AppInfoError (List AppInfo) :=
  match scan_registry_key fs reg.uninstall icon_size with
  | .error e => .error e
  | .ok l1 =>
    match scan_registry_key fs reg.uninstallWow64 icon_size with
    | .error e => .error e
    | .ok l2 => .ok (l1 ++ l2)

/-- The WIC pixel formats `window::get_file_icon` distinguishes:
`GUID_WICPixelFormat32bppBGRA`, `GUID_WICPixelFormat32bppRGBA`, anything
else. -/
inductive WICFormat where
  | bgra32
  | rgba32
  | otherFormat
deriving DecidableEq, Repr

/-- The BGRA→RGBA loop of `window::get_file_icon`:
`for chunk in pixels.chunks_exact_mut(4) { chunk.swap(0, 2); }` — every
complete 4-byte chunk has its bytes 0 and 2 swapped, a trailing fragment of
fewer than 4 bytes is untouched. -/
def bgraToRgba : List Byte → List Byte
  | b :: g :: r :: a :: rest => r :: g :: b :: a :: bgraToRgba rest
  | rest => rest

/-- The COM/Shell/WIC collaborators of `window::get_file_icon`, as success
flags plus a byte oracle for the pixels `CopyPixels` writes (the source
copies `size*size*4` bytes at stride `size*4` into a buffer of exactly that
length). -/
structure WinIconOS where
  shellItemOk : Bool
  getImageOk : Bool
  wicFactoryOk : Bool
  createBitmapOk : Bool
  pixelFormat : Option WICFormat
  copyPixelsOk : Bool
  sourceByte : Nat → Byte

/-- `window.rs`: `get_file_icon(path, size)`.  Each fallible COM call maps
its error to `FileIconError::Failed`. -/
def get_file_icon (os : WinIconOS) (size : Nat) : Except AppInfoError Icon :=
  if !os.shellItemOk then .error (.fileIconError .failed)
  else if !os.getImageOk then .error (.fileIconError .failed)
  else if !os.wicFactoryOk then .error (.fileIconError .failed)
  else if !os.createBitmapOk then .error (.fileIconError .failed)
  else
    match os.pixelFormat with
    | none => .error (.fileIconError .failed)
    | some pixel_format =>
      match pixel_format with
      | .bgra32 | .rgba32 =>
        if !os.copyPixelsOk then .error (.fileIconError .failed)
        else
          let pixels := (List.range (size * size * 4)).map os.sourceByte
          let pixels := if pixel_format == .bgra32 then bgraToRgba pixels else pixels
          .ok { width := size, height := size, pixels := pixels }
      | .otherFormat => .error (.fileIconError .failed)

end Window

/-! ## Concrete sample data used by witnesses and counterexamples -/

namespace Fixtures

/-- A discovered app named `Calculator`. -/
def calculatorApp : AppInfo :=
  { name := "Calculator", version := none,
    path := "/Applications/Calculator.app", icon := none,
    identifier := some "com.apple.calculator", publisher := none,
    install_date := none }

/-- A duplicate of the same app found in a second scan directory, with the
name differing only in ASCII case. -/
def calculatorDup : AppInfo :=
  { name := "calculator", version := none,
    path := "/System/Applications/Calculator.app", icon := none,
    identifier := some "com.apple.calculator", publisher := none,
    install_date := none }

/-- A discovery function producing both entries, in scan order. -/
def discoverCalc : Nat → Except AppInfoError (List AppInfo) :=
  fun _ => .ok [calculatorApp, calculatorDup]

/-- The main executable of a sample Windows install directory. -/
def appExe : Window.WinPath :=
  { full := "C:\\Program Files\\App\\app.exe",
    file_stem := some "app", extension := some "exe" }

/-- The uninstaller executable of the same directory. -/
def uninsExe : Window.WinPath :=
  { full := "C:\\Program Files\\App\\unins000.exe",
    file_stem := some "unins000", extension := some "exe" }

/-- A Windows filesystem with one install directory listing the uninstaller
first, and with icon extraction always failing. -/
def winFS : Window.WinFS :=
  { pathExists := fun s => s == "C:\\Program Files\\App",
    readDir := fun s =>
      if s == "C:\\Program Files\\App" then some [uninsExe, appExe] else none,
    getFileIconOk := fun _ _ => none }

/-- A registry subkey carrying a display name and an install location. -/
def goodKey : Window.WinSubkey :=
  { openOk := true, displayName := some "App", displayVersion := some "1.0",
    publisher := some "Acme", installLocation := some "C:\\Program Files\\App",
    installDate := some "20240101", displayIcon := none }

/-- A registry subkey with no `DisplayName` value. -/
def noNameKey : Window.WinSubkey :=
  { openOk := true, displayName := none, displayVersion := none,
    publisher := none, installLocation := none,
    installDate := none, displayIcon := none }

/-- A macOS bundle whose `Info.plist` parses, with icon extraction always
failing. -/
def goodBundle : Macos.MacBundle :=
  { extension := some "app", file_stem := some "Good",
    pathStr := "/Applications/Good.app",
    plist := .content (.dict
      [("CFBundleDisplayName", .str "Good"),
       ("CFBundleIdentifier", .str "com.example.good")]),
    iconOracle := fun _ => none }

/-- A macOS bundle whose `Info.plist` is missing. -/
def badBundle : Macos.MacBundle :=
  { extension := some "app", file_stem := some "Bad",
    pathStr := "/Applications/Bad.app",
    plist := .missing,
    iconOracle := fun _ => none }

/-- The `AppInfo` produced for `goodBundle` when no icon is requested. -/
def goodApp : AppInfo :=
  { name := "Good", version := none, path := "/Applications/Good.app",
    icon := none, identifier := some "com.example.good", publisher := none,
    install_date := none }

end Fixtures

/-! ## Theorems -/

/-- C1 (counterexample): the claim says `get_file_icon(path, 0)` always
fails with the zero-size (`NullIconSize`) error, for any path including a
nonexistent one.  On a filesystem where the path does not exist, the call
with size `0` instead fails with `PathDoesNotExist`: the source checks
`path.exists()` before the zero-size check. -/
theorem c1_counterexample :
    get_file_icon (fun _ => false) (fun _ _ => .error (.fileIconError .failed))
        "/no/such/path" 0
      = .error (.fileIconError .pathDoesNotExist) ∧
    AppInfoError.fileIconError .pathDoesNotExist ≠
      AppInfoError.fileIconError .nullIconSize := by
  exact ⟨rfl, by decide⟩

/-- C1 (amended): `get_file_icon(path, 0)` fails with `NullIconSize` for
every path that exists; the existence check precedes the zero-size check,
so for a path that does not exist `get_file_icon` fails with
`PathDoesNotExist` (for any size, including `0`). -/
theorem c1_zero_size_after_existence (fs_exists : String → Bool)
    (extract : String → Nat → Except AppInfoError Icon) (path : String) :
    (fs_exists path = true →
      get_file_icon fs_exists extract path 0
        = .error (.fileIconError .nullIconSize)) ∧
    (fs_exists path = false → ∀ size,
      get_file_icon fs_exists extract path size
        = .error (.fileIconError .pathDoesNotExist)) := by
  constructor
  · intro h
    simp [get_file_icon, h]
  · intro h size
    simp [get_file_icon, h]

/-- C1 (witness): both branches of the amended claim at concrete inputs. -/
theorem c1_zero_size_after_existence_witness :
    get_file_icon (fun _ => true) (fun _ _ => .error (.fileIconError .failed))
        "/tmp/present" 0
      = .error (.fileIconError .nullIconSize) ∧
    get_file_icon (fun _ => false) (fun _ _ => .error (.fileIconError .failed))
        "/tmp/absent" 7
      = .error (.fileIconError .pathDoesNotExist) :=
  ⟨(c1_zero_size_after_existence (fun _ => true)
      (fun _ _ => .error (.fileIconError .failed)) "/tmp/present").1 rfl,
   (c1_zero_size_after_existence (fun _ => false)
      (fun _ _ => .error (.fileIconError .failed)) "/tmp/absent").2 rfl 7⟩

/-- Helper: two queries that agree up to ASCII case induce the same match
predicate in `find_app_by_name`. -/
theorem eq_ignore_ascii_case_pred_congr (name other : String)
    (h : eq_ignore_ascii_case name other = true) :
    (fun app : AppInfo => eq_ignore_ascii_case app.name name)
      = (fun app : AppInfo => eq_ignore_ascii_case app.name other) := by
  have hlow : asciiLowerStr name = asciiLowerStr other := by
    simpa [eq_ignore_ascii_case] using h
  funext app
  simp [eq_ignore_ascii_case, hlow]

/-- C3: when discovery succeeds, `find_app_by_name` returns only an entry
of the discovered list whose name matches the query case-insensitively and
exactly; if no entry matches, it fails with `AppNotFound` carrying the
queried name; and two queries equal up to ASCII case (such as
`calculator` and `CALCULATOR` for an app named `Calculator`) locate the
same entry. -/
theorem c3_find_app_case_insensitive
    (discover : Nat → Except AppInfoError (List AppInfo))
    (name : String) (icon_size : Nat) (apps : List AppInfo)
    (h : discover icon_size = .ok apps) :
    (∀ app, find_app_by_name discover name icon_size = .ok app →
        app ∈ apps ∧ eq_ignore_ascii_case app.name name = true) ∧
    ((∀ app ∈ apps, eq_ignore_ascii_case app.name name = false) →
        find_app_by_name discover name icon_size
          = .error (.appNotFound name)) ∧
    (∀ other app, eq_ignore_ascii_case name other = true →
        (find_app_by_name discover name icon_size = .ok app ↔
         find_app_by_name discover other icon_size = .ok app)) := by
  refine ⟨?_, ?_, ?_⟩
  · intro app happ
    rcases hf : apps.find? (fun app => eq_ignore_ascii_case app.name name) with _ | found
    · simp [find_app_by_name, h, hf] at happ
    · simp [find_app_by_name, h, hf] at happ
      subst happ
      refine ⟨List.mem_of_find?_eq_some hf, ?_⟩
      simpa using List.find?_some hf
  · intro hnone
    have hf : apps.find? (fun app => eq_ignore_ascii_case app.name name) = none :=
      List.find?_eq_none.mpr (fun x hx => by simp [hnone x hx])
    simp [find_app_by_name, h, hf]
  · intro other app hcase
    simp only [find_app_by_name, h,
      eq_ignore_ascii_case_pred_congr name other hcase]
    rcases hf : apps.find? (fun app => eq_ignore_ascii_case app.name other)
      with _ | found
    · simp [hf]
    · simp [hf]

/-- C3 (witness): with a discovered app named `Calculator`, the theorem at
the query `CALCULATOR` yields membership and a case-insensitive match, the
query `calculator` locates the same entry as `CALCULATOR`, and a query
matching nothing yields `AppNotFound`. -/
theorem c3_find_app_case_insensitive_witness :
    (Fixtures.calculatorApp ∈ [Fixtures.calculatorApp] ∧
      eq_ignore_ascii_case Fixtures.calculatorApp.name "CALCULATOR" = true) ∧
    find_app_by_name (fun _ => .ok [Fixtures.calculatorApp]) "NotInstalledXyz" 0
      = .error (.appNotFound "NotInstalledXyz") ∧
    (find_app_by_name (fun _ => .ok [Fixtures.calculatorApp]) "calculator" 0
        = .ok Fixtures.calculatorApp ↔
     find_app_by_name (fun _ => .ok [Fixtures.calculatorApp]) "CALCULATOR" 0
        = .ok Fixtures.calculatorApp) :=
  ⟨(c3_find_app_case_insensitive (fun _ => .ok [Fixtures.calculatorApp])
      "CALCULATOR" 0 [Fixtures.calculatorApp] rfl).1 Fixtures.calculatorApp rfl,
   (c3_find_app_case_insensitive (fun _ => .ok [Fixtures.calculatorApp])
      "NotInstalledXyz" 0 [Fixtures.calculatorApp] rfl).2.1
      (by intro app hmem; fin_cases hmem; decide),
   (c3_find_app_case_insensitive (fun _ => .ok [Fixtures.calculatorApp])
      "calculator" 0 [Fixtures.calculatorApp] rfl).2.2 "CALCULATOR"
      Fixtures.calculatorApp (by decide)⟩

/-- C9: when discovery yields a list in which every entry before `a` fails
the case-insensitive comparison with the query and `a` matches it,
`find_app_by_name` returns `a` — the earliest matching entry in discovery
order (duplicates are not deduplicated and later matches are ignored). -/
theorem c9_first_match_in_order
    (discover : Nat → Except AppInfoError (List AppInfo))
    (name : String) (icon_size : Nat) (l1 l2 : List AppInfo) (a : AppInfo)
    (h : discover icon_size = .ok (l1 ++ a :: l2))
    (hbefore : ∀ b ∈ l1, eq_ignore_ascii_case b.name name = false)
    (ha : eq_ignore_ascii_case a.name name = true) :
    find_app_by_name discover name icon_size = .ok a := by
  have hf1 : l1.find? (fun app => eq_ignore_ascii_case app.name name) = none :=
    List.find?_eq_none.mpr (fun x hx => by simp [hbefore x hx])
  have : (l1 ++ a :: l2).find? (fun app => eq_ignore_ascii_case app.name name)
      = some a := by
    rw [List.find?_append, hf1]
    simp [List.find?_cons, ha]
  simp [find_app_by_name, h, this]

/-- C9 (witness): two entries match the query `CALCULATOR`
case-insensitively (a duplicate across scan locations); the first one in
discovery order is returned. -/
theorem c9_first_match_in_order_witness :
    find_app_by_name Fixtures.discoverCalc "CALCULATOR" 0
      = .ok Fixtures.calculatorApp :=
  c9_first_match_in_order Fixtures.discoverCalc "CALCULATOR" 0
    [] [Fixtures.calculatorDup] Fixtures.calculatorApp rfl
    (by intro b hb; simp at hb) (by decide)

/-- Helper: the BGRA→RGBA swap preserves the buffer length. -/
theorem bgraToRgba_length : ∀ l : List Byte,
    (Window.bgraToRgba l).length = l.length
  | [] => rfl
  | [_] => rfl
  | [_, _] => rfl
  | [_, _, _] => rfl
  | _ :: _ :: _ :: _ :: rest => by
    simp [Window.bgraToRgba, bgraToRgba_length rest]

/-- C2: whenever a platform icon extractor succeeds — macOS
`get_file_icon` or Windows `get_file_icon`, any path, any size above
zero — the returned `Icon` has `width = size`, `height = size`, and a
pixel buffer of exactly `size * size * 4` bytes. -/
theorem c2_icon_dimensions (mos : Macos.MacIconOS) (wos : Window.WinIconOS)
    (path : String) (size : Nat) (hsize : 0 < size) :
    (∀ icon, Macos.get_file_icon mos path size = .ok icon →
        icon.width = size ∧ icon.height = size ∧
        icon.pixels.length = size * size * 4) ∧
    (∀ icon, Window.get_file_icon wos size = .ok icon →
        icon.width = size ∧ icon.height = size ∧
        icon.pixels.length = size * size * 4) := by
  constructor
  · intro icon hok
    unfold Macos.get_file_icon at hok
    rcases hc : mos.canonicalize path with _ | canonical_path
    · simp [hc] at hok
    rcases hs : mos.to_str canonical_path with _ | file_path
    · simp [hc, hs] at hok
    rcases hctx : mos.contextOk
    · simp [hc, hs, hctx] at hok
    · simp [hc, hs, hctx] at hok
      subst hok
      refine ⟨rfl, rfl, ?_⟩
      simp [Macos.NSBitmapImageRep.bytesPerPlane]
      ring
  · intro icon hok
    unfold Window.get_file_icon at hok
    rcases h1 : wos.shellItemOk
    · simp [h1] at hok
    rcases h2 : wos.getImageOk
    · simp [h1, h2] at hok
    rcases h3 : wos.wicFactoryOk
    · simp [h1, h2, h3] at hok
    rcases h4 : wos.createBitmapOk
    · simp [h1, h2, h3, h4] at hok
    rcases hf : wos.pixelFormat with _ | fmt
    · simp [h1, h2, h3, h4, hf] at hok
    rcases fmt with _ | _ | _
    · rcases h5 : wos.copyPixelsOk
      · simp [h1, h2, h3, h4, hf, h5] at hok
      · simp [h1, h2, h3, h4, hf, h5] at hok
        subst hok
        exact ⟨rfl, rfl, by simp [bgraToRgba_length]⟩
    · rcases h5 : wos.copyPixelsOk
      · simp [h1, h2, h3, h4, hf, h5] at hok
      · simp [h1, h2, h3, h4, hf, h5] at hok
        subst hok
        exact ⟨rfl, rfl, by simp⟩
    · simp [h1, h2, h3, h4, hf] at hok

/-- C2 (witness): a 1×1 extraction on each platform, with all OS calls
succeeding, yields width 1, height 1 and 4 pixel bytes. -/
theorem c2_icon_dimensions_witness :
    (0 < 1) ∧
    ((1 : Nat) = 1 ∧ (1 : Nat) = 1 ∧ ([0, 0, 0, 0] : List Byte).length = 1 * 1 * 4) ∧
    ((1 : Nat) = 1 ∧ (1 : Nat) = 1 ∧ ([2, 1, 0, 3] : List Byte).length = 1 * 1 * 4) :=
  ⟨by decide,
   (c2_icon_dimensions
      ⟨fun _ => some "/canonical", fun s => some s, true, fun _ _ _ => 0⟩
      ⟨true, true, true, true, some .bgra32, true, fun i => i⟩
      "/tmp/present" 1 (by decide)).1 ⟨1, 1, [0, 0, 0, 0]⟩ rfl,
   (c2_icon_dimensions
      ⟨fun _ => some "/canonical", fun s => some s, true, fun _ _ _ => 0⟩
      ⟨true, true, true, true, some .bgra32, true, fun i => i⟩
      "/tmp/present" 1 (by decide)).2 ⟨1, 1, [2, 1, 0, 3]⟩ rfl⟩

/-- Helper: on a buffer whose length is a multiple of 4, the BGRA→RGBA
loop exchanges bytes 0 and 2 of every 4-byte pixel and leaves bytes 1 and
3 in place. -/
theorem bgraToRgba_getElem? :
    ∀ l : List Byte, l.length % 4 = 0 → ∀ i, i < l.length →
      (Window.bgraToRgba l)[i]? =
        l[if i % 4 = 0 then i + 2 else if i % 4 = 2 then i - 2 else i]?
  | [], _, i, hi => by simp at hi
  | [_], hd, _, _ => by simp at hd
  | [_, _], hd, _, _ => by simp at hd
  | [_, _, _], hd, _, _ => by simp at hd
  | b :: g :: r :: a :: rest, _, 0, _ => by simp [Window.bgraToRgba]
  | b :: g :: r :: a :: rest, _, 1, _ => by simp [Window.bgraToRgba]
  | b :: g :: r :: a :: rest, _, 2, _ => by simp [Window.bgraToRgba]
  | b :: g :: r :: a :: rest, _, 3, _ => by simp [Window.bgraToRgba]
  | b :: g :: r :: a :: rest, hd, n + 4, hi => by
    have hrest : rest.length % 4 = 0 := by
      simp at hd; omega
    have hn : n < rest.length := by
      simp at hi; omega
    have ih := bgraToRgba_getElem? rest hrest n hn
    have hmod : (n + 4) % 4 = n % 4 := Nat.add_mod_right n 4
    rw [hmod]
    by_cases h0 : n % 4 = 0
    · simp only [h0, if_pos rfl] at ih ⊢
      simpa [Window.bgraToRgba] using ih
    · by_cases h2 : n % 4 = 2
      · simp only [h0, h2, if_neg, if_pos rfl, reduceIte] at ih ⊢
        have hge : 2 ≤ n := by omega
        have hidx : n + 4 - 2 = (n - 2) + 4 := by omega
        rw [hidx]
        simpa [Window.bgraToRgba] using ih
      · simp only [h0, h2, reduceIte] at ih ⊢
        simpa [Window.bgraToRgba] using ih

/-- C4: Windows pixel-format normalization.  With all COM calls
succeeding: a reported 32-bit BGRA format yields exactly the copied
source buffer run through the byte-0/byte-2 swap (whose effect on every
4-byte pixel is proved in the last conjunct); a reported 32-bit RGBA
format yields the copied bytes unchanged; any other reported format makes
`get_file_icon` fail with `Failed`. -/
theorem c4_pixel_format_normalization (wos : Window.WinIconOS) (size : Nat)
    (h1 : wos.shellItemOk = true) (h2 : wos.getImageOk = true)
    (h3 : wos.wicFactoryOk = true) (h4 : wos.createBitmapOk = true)
    (h5 : wos.copyPixelsOk = true) :
    (wos.pixelFormat = some .bgra32 →
      Window.get_file_icon wos size =
        .ok { width := size, height := size,
              pixels := Window.bgraToRgba
                ((List.range (size * size * 4)).map wos.sourceByte) }) ∧
    (wos.pixelFormat = some .rgba32 →
      Window.get_file_icon wos size =
        .ok { width := size, height := size,
              pixels := (List.range (size * size * 4)).map wos.sourceByte }) ∧
    (wos.pixelFormat = some .otherFormat →
      Window.get_file_icon wos size = .error (.fileIconError .failed)) ∧
    (∀ l : List Byte, l.length % 4 = 0 → ∀ i, i < l.length →
      (Window.bgraToRgba l)[i]? =
        l[if i % 4 = 0 then i + 2 else if i % 4 = 2 then i - 2 else i]?) := by
  refine ⟨?_, ?_, ?_, bgraToRgba_getElem?⟩
  · intro hf
    simp [Window.get_file_icon, h1, h2, h3, h4, h5, hf]
  · intro hf
    simp [Window.get_file_icon, h1, h2, h3, h4, h5, hf]
  · intro hf
    simp [Window.get_file_icon, h1, h2, h3, h4, h5, hf]

/-- C4 (witness): a 1×1 blue-first source `[0, 1, 2, 3]` comes back as
`[2, 1, 0, 3]` — first and third bytes swapped — and the swap
characterization holds at byte 0 of that pixel. -/
theorem c4_pixel_format_normalization_witness :
    Window.get_file_icon ⟨true, true, true, true, some .bgra32, true, fun i => i⟩ 1
      = .ok { width := 1, height := 1, pixels := [2, 1, 0, 3] } ∧
    (Window.bgraToRgba [0, 1, 2, 3])[0]? = [0, 1, 2, 3][2]? :=
  ⟨by
    have h := (c4_pixel_format_normalization
      ⟨true, true, true, true, some .bgra32, true, fun i => i⟩ 1
      rfl rfl rfl rfl rfl).1 rfl
    simpa using h,
   by
    have h := (c4_pixel_format_normalization
      ⟨true, true, true, true, some .bgra32, true, fun i => i⟩ 1
      rfl rfl rfl rfl rfl).2.2.2 [0, 1, 2, 3] rfl 0 (by decide)
    simpa using h⟩

/-- Helper: only the empty list is a leading segment of the empty list. -/
theorem isPrefixList_nil (p : List Char)
    (h : Window.isPrefixList p [] = true) : p = [] := by
  cases p with
  | nil => rfl
  | cons a as_ => simp [Window.isPrefixList] at h

/-- Helper: the leading-segment relation is transitive. -/
theorem isPrefixList_trans : ∀ p q r : List Char,
    Window.isPrefixList p q = true → Window.isPrefixList q r = true →
    Window.isPrefixList p r = true
  | [], _, _, _, _ => rfl
  | _ :: _, [], _, hpq, _ => by simp [Window.isPrefixList] at hpq
  | _ :: _, _ :: _, [], _, hqr => by simp [Window.isPrefixList] at hqr
  | a :: as_, b :: bs, c :: cs, hpq, hqr => by
    simp [Window.isPrefixList] at hpq hqr ⊢
    exact ⟨hpq.1.trans hqr.1, isPrefixList_trans as_ bs cs hpq.2 hqr.2⟩

/-- Helper: a string containing `q` contains every leading segment of
`q` (so the redundant `uninst`/`uninstall` patterns of the source filter
are absorbed by `unins`). -/
theorem containsSeg_mono : ∀ s p q : List Char,
    Window.isPrefixList p q = true → Window.containsSeg s q = true →
    Window.containsSeg s p = true
  | [], p, q, hpq, hsq => by
    unfold Window.containsSeg at hsq ⊢
    simp at hsq ⊢
    rw [isPrefixList_nil q hsq] at hpq
    rw [isPrefixList_nil p hpq]
    rfl
  | c :: rest, p, q, hpq, hsq => by
    unfold Window.containsSeg at hsq ⊢
    simp only [Bool.or_eq_true] at hsq ⊢
    rcases hsq with h | h
    · exact Or.inl (isPrefixList_trans p q (c :: rest) hpq h)
    · exact Or.inr (containsSeg_mono rest p q hpq h)

/-- C5: Windows executable resolution.  (1) An executable is rejected by
the uninstaller filter exactly when its lower-cased stem contains
`unins`, `uninstall` or `remove`, or begins with `un`.  (2) The first
executable surviving the filter is selected.  (3) If the filter removes
every candidate, the first executable of the directory is still returned
as a fallback. -/
theorem c5_executable_resolution (fs : Window.WinFS) (dir : String)
    (entries : List Window.WinPath)
    (hex : fs.pathExists dir = true)
    (hrd : fs.readDir dir = some entries) :
    (∀ full stem ext,
      Window.keepExe ⟨full, some stem, ext⟩ = false ↔
        (Window.containsSeg (asciiLowerStr stem).data "unins".data = true ∨
         Window.containsSeg (asciiLowerStr stem).data "uninstall".data = true ∨
         Window.containsSeg (asciiLowerStr stem).data "remove".data = true ∨
         Window.isPrefixList "un".data (asciiLowerStr stem).data = true)) ∧
    (∀ p, ((entries.filter Window.isExe).filter Window.keepExe).head? = some p →
        Window.find_main_executable fs dir = some p) ∧
    ((entries.filter Window.isExe).filter Window.keepExe = [] →
        Window.find_main_executable fs dir
          = (entries.filter Window.isExe).head?) := by
  refine ⟨?_, ?_, ?_⟩
  · intro full stem ext
    constructor
    · intro hfalse
      cases hA : Window.containsSeg (asciiLowerStr stem).data "unins".data with
      | true => exact Or.inl rfl
      | false =>
        cases hC : Window.containsSeg (asciiLowerStr stem).data "uninstall".data with
        | true => exact Or.inr (Or.inl rfl)
        | false =>
          cases hD : Window.containsSeg (asciiLowerStr stem).data "remove".data with
          | true => exact Or.inr (Or.inr (Or.inl rfl))
          | false =>
            cases hE : Window.isPrefixList "un".data (asciiLowerStr stem).data with
            | true => exact Or.inr (Or.inr (Or.inr rfl))
            | false =>
              exfalso
              have hB : Window.containsSeg (asciiLowerStr stem).data
                  "uninst".data = false := by
                cases hb : Window.containsSeg (asciiLowerStr stem).data
                    "uninst".data with
                | false => rfl
                | true =>
                  exact absurd
                    (containsSeg_mono (asciiLowerStr stem).data
                      "unins".data "uninst".data (by decide) hb)
                    (by simp [hA])
              simp [Window.keepExe, hA, hB, hC, hD, hE] at hfalse
    · intro h
      rcases h with hA | hC | hD | hE
      · simp [Window.keepExe, hA]
      · simp [Window.keepExe, hC]
      · simp [Window.keepExe, hD]
      · simp [Window.keepExe, hE]
  · intro p hp
    simp at hp
    simp [Window.find_main_executable, hex, hrd, hp]
  · intro hempty
    simp at hempty
    have hfnone :
        entries.find? (fun a => Window.keepExe a && Window.isExe a) = none := by
      refine List.find?_eq_none.mpr (fun x hx hcontra => ?_)
      simp at hcontra
      have hfalse := hempty x hx hcontra.1
      simp [hfalse] at hcontra
    simp [Window.find_main_executable, hex, hrd, hfnone]

/-- C5 (witness): a directory listing `unins000.exe` before `app.exe`
resolves to `app.exe`; the filter rejects the stem `unins000`; and a
directory containing only `unins000.exe` still resolves to it via the
fallback. -/
theorem c5_executable_resolution_witness :
    Window.find_main_executable Fixtures.winFS "C:\\Program Files\\App"
      = some Fixtures.appExe ∧
    Window.keepExe ⟨"C:\\Program Files\\App\\unins000.exe", some "unins000",
      some "exe"⟩ = false ∧
    Window.find_main_executable
      ⟨fun _ => true, fun _ => some [Fixtures.uninsExe], fun _ _ => none⟩
      "C:\\OnlyUninstaller" = some Fixtures.uninsExe :=
  ⟨(c5_executable_resolution Fixtures.winFS "C:\\Program Files\\App"
      [Fixtures.uninsExe, Fixtures.appExe] rfl rfl).2.1 Fixtures.appExe rfl,
   ((c5_executable_resolution Fixtures.winFS "C:\\Program Files\\App"
      [Fixtures.uninsExe, Fixtures.appExe] rfl rfl).1
      "C:\\Program Files\\App\\unins000.exe" "unins000" (some "exe")).mpr
      (Or.inl (by decide)),
   ((c5_executable_resolution
      ⟨fun _ => true, fun _ => some [Fixtures.uninsExe], fun _ _ => none⟩
      "C:\\OnlyUninstaller" [Fixtures.uninsExe] rfl rfl).2.2 rfl).trans rfl⟩

/-- Helper: a macOS directory scan whose iterator items all arrive `Ok`
always succeeds. -/
theorem scan_entries_map_ok (sz : Nat) : ∀ l : List Macos.MacBundle,
    ∃ apps, Macos.scan_entries sz (l.map Except.ok) = .ok apps
  | [] => ⟨[], rfl⟩
  | b :: rest => by
    obtain ⟨apps, h⟩ := scan_entries_map_ok sz rest
    cases hext : b.extension == some "app" with
    | false => exact ⟨apps, by simp [Macos.scan_entries, hext, h]⟩
    | true =>
      cases hp : Macos.parse_app_bundle b sz with
      | ok a => exact ⟨a :: apps, by simp [Macos.scan_entries, Except.map, hext, hp, h]⟩
      | error e => exact ⟨apps, by simp [Macos.scan_entries, hext, hp, h]⟩

/-- Helper: a bundle whose parse fails contributes nothing to the scan —
the scan of the surrounding list is unchanged. -/
theorem scan_entries_drop_failed (sz : Nat) (x : Macos.MacBundle)
    (e : AppInfoError) (hx : Macos.parse_app_bundle x sz = .error e) :
    ∀ l1 l2 : List Macos.MacBundle,
      Macos.scan_entries sz ((l1 ++ x :: l2).map Except.ok)
        = Macos.scan_entries sz ((l1 ++ l2).map Except.ok)
  | [], l2 => by
    cases hext : x.extension == some "app" with
    | false => simp [Macos.scan_entries, hext]
    | true => simp [Macos.scan_entries, hext, hx]
  | a :: l1, l2 => by
    have ih := scan_entries_drop_failed sz x e hx l1 l2
    simp only [List.map_append, List.map_cons] at ih
    cases hext : a.extension == some "app" with
    | false => simp [Macos.scan_entries, hext, ih]
    | true =>
      cases hp : Macos.parse_app_bundle a sz with
      | ok app_info => simp [Macos.scan_entries, hext, hp, ih]
      | error e2 => simp [Macos.scan_entries, hext, hp, ih]

/-- Helper: a registry subkey whose parse fails contributes nothing to the
registry walk — the walk of the surrounding list is unchanged. -/
theorem scan_subkeys_drop_failed (fs : Window.WinFS) (sz : Nat)
    (k : Window.WinSubkey) (e : AppInfoError)
    (hk : Window.parse_registry_app fs k sz = .error e) :
    ∀ k1 k2 : List Window.WinSubkey,
      Window.scan_subkeys fs sz (k1 ++ k :: k2)
        = Window.scan_subkeys fs sz (k1 ++ k2)
  | [], k2 => by simp [Window.scan_subkeys, hk]
  | a :: k1, k2 => by
    have ih := scan_subkeys_drop_failed fs sz k e hk k1 k2
    cases hp : Window.parse_registry_app fs a sz with
    | ok app_info => simp [Window.scan_subkeys, hp, ih]
    | error e2 => simp [Window.scan_subkeys, hp, ih]

/-- C6: per-item failures during a multi-item scan are swallowed.  A macOS
bundle whose parse fails (missing or malformed metadata) is omitted and the
directory scan of well-delivered entries still succeeds with the remaining
items; a Windows registry subkey whose parse fails (such as one with no
`DisplayName`) is omitted and the registry walk returns `Ok` with the
remaining items. -/
theorem c6_per_item_failures_skipped (sz : Nat) (fs : Window.WinFS)
    (x : Macos.MacBundle) (e : AppInfoError)
    (l1 l2 : List Macos.MacBundle)
    (k : Window.WinSubkey) (e2 : AppInfoError)
    (k1 k2 : List Window.WinSubkey)
    (hx : Macos.parse_app_bundle x sz = .error e)
    (hk : Window.parse_registry_app fs k sz = .error e2) :
    (Macos.scan_entries sz ((l1 ++ x :: l2).map Except.ok)
       = Macos.scan_entries sz ((l1 ++ l2).map Except.ok)) ∧
    (∃ apps, Macos.scan_entries sz ((l1 ++ x :: l2).map Except.ok)
       = .ok apps) ∧
    (Window.scan_subkeys fs sz (k1 ++ k :: k2)
       = Window.scan_subkeys fs sz (k1 ++ k2)) ∧
    (Window.scan_registry_key fs (some (k1 ++ k :: k2)) sz
       = .ok (Window.scan_subkeys fs sz (k1 ++ k2))) := by
  refine ⟨scan_entries_drop_failed sz x e hx l1 l2, ?_,
    scan_subkeys_drop_failed fs sz k e2 hk k1 k2, ?_⟩
  · exact scan_entries_map_ok sz (l1 ++ x :: l2)
  · simp [Window.scan_registry_key,
      scan_subkeys_drop_failed fs sz k e2 hk k1 k2]

/-- C6 (witness): a directory holding a good bundle and a bundle with a
missing `Info.plist` scans to the same result as without the bad bundle
and succeeds; a registry key holding a good subkey and one with no
`DisplayName` walks to the same result as without it, as an `Ok`. -/
theorem c6_per_item_failures_skipped_witness :
    (Macos.scan_entries 0
        (([Fixtures.goodBundle] ++ Fixtures.badBundle :: []).map Except.ok)
       = Macos.scan_entries 0
        (([Fixtures.goodBundle] ++ []).map Except.ok)) ∧
    (∃ apps, Macos.scan_entries 0
        (([Fixtures.goodBundle] ++ Fixtures.badBundle :: []).map Except.ok)
       = .ok apps) ∧
    (Window.scan_subkeys Fixtures.winFS 0
        ([Fixtures.goodKey] ++ Fixtures.noNameKey :: [])
       = Window.scan_subkeys Fixtures.winFS 0 ([Fixtures.goodKey] ++ [])) ∧
    (Window.scan_registry_key Fixtures.winFS
        (some ([Fixtures.goodKey] ++ Fixtures.noNameKey :: [])) 0
       = .ok (Window.scan_subkeys Fixtures.winFS 0
          ([Fixtures.goodKey] ++ []))) :=
  c6_per_item_failures_skipped 0 Fixtures.winFS
    Fixtures.badBundle (.bundleParseError "/Applications/Bad.app")
    [Fixtures.goodBundle] []
    Fixtures.noNameKey (.registryError "Failed to read registry value")
    [Fixtures.goodKey] [] rfl rfl

/-- C7 (counterexample): the claim says the name falls back from the
CFBundleDisplayName string to the CFBundleName string, and that the name is
never empty.  The source instead chains `or_else` on the key lookup and
`and_then(as_string)` afterwards: a bundle whose `CFBundleDisplayName` is
present but not a string skips `CFBundleName` (name becomes the stem `Bar`,
not `Foo`), and a bundle whose `CFBundleDisplayName` is the empty string
gets the empty name. -/
theorem c7_counterexample :
    (Macos.parse_app_bundle
        { extension := some "app", file_stem := some "Bar",
          pathStr := "/Applications/Bar.app",
          plist := .content (.dict
            [("CFBundleDisplayName", .other), ("CFBundleName", .str "Foo")]),
          iconOracle := fun _ => none } 0
      = .ok { name := "Bar", version := none, path := "/Applications/Bar.app",
              icon := none, identifier := none, publisher := none,
              install_date := none } ∧ ("Bar" : String) ≠ "Foo") ∧
    (Macos.parse_app_bundle
        { extension := some "app", file_stem := some "Empty",
          pathStr := "/Applications/Empty.app",
          plist := .content (.dict [("CFBundleDisplayName", .str "")]),
          iconOracle := fun _ => none } 0
      = .ok { name := "", version := none, path := "/Applications/Empty.app",
              icon := none, identifier := none, publisher := none,
              install_date := none } ∧ ("" : String).length = 0) :=
  ⟨⟨rfl, by decide⟩, rfl, rfl⟩

/-- C7 (amended): for a bundle whose plist parses to a dictionary, the name
is the `CFBundleDisplayName` value when that key is present with a string;
the `CFBundleName` value when `CFBundleDisplayName` is absent and
`CFBundleName` holds a string; and in every other case — the selected key
absent or its value not a string, including a present but non-string
`CFBundleDisplayName`, after which `CFBundleName` is never consulted — the
bundle file stem, else the literal `Unknown`.  The name equals whatever
string was selected, which may be empty. -/
theorem c7_name_resolution (b : Macos.MacBundle) (v : Macos.PValue)
    (dict : List (String × Macos.PValue)) (sz : Nat)
    (hp : b.plist = .content v) (hd : v.as_dictionary = some dict) :
    (∀ s, dict.lookup "CFBundleDisplayName" = some (.str s) →
      ∀ a, Macos.parse_app_bundle b sz = .ok a → a.name = s) ∧
    (dict.lookup "CFBundleDisplayName" = none →
      ∀ s, dict.lookup "CFBundleName" = some (.str s) →
      ∀ a, Macos.parse_app_bundle b sz = .ok a → a.name = s) ∧
    (∀ w, dict.lookup "CFBundleDisplayName" = some w → w.as_string = none →
      ∀ a, Macos.parse_app_bundle b sz = .ok a →
        a.name = b.file_stem.getD "Unknown") ∧
    (dict.lookup "CFBundleDisplayName" = none →
      dict.lookup "CFBundleName" = none →
      ∀ a, Macos.parse_app_bundle b sz = .ok a →
        a.name = b.file_stem.getD "Unknown") ∧
    (dict.lookup "CFBundleDisplayName" = none →
      ∀ w, dict.lookup "CFBundleName" = some w → w.as_string = none →
      ∀ a, Macos.parse_app_bundle b sz = .ok a →
        a.name = b.file_stem.getD "Unknown") := by
  refine ⟨?_, ?_, ?_, ?_, ?_⟩
  · intro s hs a ha
    simp [Macos.parse_app_bundle, hp, hd, hs, Macos.PValue.as_string] at ha
    simp [← ha]
  · intro hnone s hs a ha
    simp [Macos.parse_app_bundle, hp, hd, hnone, hs,
      Macos.PValue.as_string] at ha
    simp [← ha]
  · intro w hw hwstr a ha
    simp [Macos.parse_app_bundle, hp, hd, hw, hwstr] at ha
    simp [← ha]
  · intro hnone hnone2 a ha
    simp [Macos.parse_app_bundle, hp, hd, hnone, hnone2] at ha
    simp [← ha]
  · intro hnone w hw hwstr a ha
    simp [Macos.parse_app_bundle, hp, hd, hnone, hw, hwstr] at ha
    simp [← ha]

/-- C7 (witness): a bundle whose `CFBundleDisplayName` is the string
`Good` resolves to the name `Good`. -/
theorem c7_name_resolution_witness : Fixtures.goodApp.name = "Good" :=
  (c7_name_resolution Fixtures.goodBundle
      (.dict [("CFBundleDisplayName", .str "Good"),
              ("CFBundleIdentifier", .str "com.example.good")])
      [("CFBundleDisplayName", .str "Good"),
       ("CFBundleIdentifier", .str "com.example.good")] 0 rfl rfl).1
    "Good" rfl Fixtures.goodApp rfl

/-- Helper: an option bound into a constantly-`none` function is `none`. -/
theorem opt_bind_none {α β : Type} (o : Option α) :
    (o.bind fun _ => (none : Option β)) = none := by
  cases o <;> rfl

/-- Helper: parsing a macOS bundle with icon size `0` never sets an icon. -/
theorem parse_app_bundle_zero_icon (b : Macos.MacBundle) (a : AppInfo)
    (h : Macos.parse_app_bundle b 0 = .ok a) : a.icon = none := by
  cases hb : b.plist with
  | missing => simp [Macos.parse_app_bundle, hb] at h
  | unreadable e => simp [Macos.parse_app_bundle, hb] at h
  | malformed e => simp [Macos.parse_app_bundle, hb] at h
  | content v =>
    cases hd : v.as_dictionary with
    | none => simp [Macos.parse_app_bundle, hb, hd] at h
    | some dict =>
      simp [Macos.parse_app_bundle, hb, hd] at h
      simp [← h]

/-- Helper: a macOS directory scan with icon size `0` yields only entries
without an icon. -/
theorem scan_entries_zero_icon :
    ∀ (l : List (Except String Macos.MacBundle)) (apps : List AppInfo),
      Macos.scan_entries 0 l = .ok apps → ∀ a ∈ apps, a.icon = none
  | [], apps, h, a, ha => by
    simp [Macos.scan_entries] at h
    subst h
    simp at ha
  | .error e :: rest, apps, h, a, ha => by
    simp [Macos.scan_entries] at h
  | .ok b :: rest, apps, h, a, ha => by
    cases hext : b.extension == some "app" with
    | false =>
      exact scan_entries_zero_icon rest apps
        (by simpa [Macos.scan_entries, hext] using h) a ha
    | true =>
      cases hp : Macos.parse_app_bundle b 0 with
      | error e =>
        exact scan_entries_zero_icon rest apps
          (by simpa [Macos.scan_entries, hext, hp] using h) a ha
      | ok ai =>
        rw [Macos.scan_entries] at h
        rw [if_pos hext] at h
        rw [hp] at h
        rcases hres : Macos.scan_entries 0 rest with e2 | tail
        · rw [hres] at h; simp [Except.map] at h
        · rw [hres] at h
          simp [Except.map] at h
          subst h
          rcases List.mem_cons.mp ha with rfl | htail
          · exact parse_app_bundle_zero_icon b a hp
          · exact scan_entries_zero_icon rest tail hres a htail

/-- Helper: scanning an optional macOS directory with icon size `0` yields
only entries without an icon. -/
theorem scanOptDir_zero_icon
    (d : Option (Except String (List (Except String Macos.MacBundle))))
    (apps : List AppInfo) (h : Macos.scanOptDir d 0 = .ok apps) :
    ∀ a ∈ apps, a.icon = none := by
  cases d with
  | none =>
    simp [Macos.scanOptDir] at h
    subst h
    simp
  | some listing =>
    cases listing with
    | error e => simp [Macos.scanOptDir, Macos.scan_directory] at h
    | ok entries =>
      exact scan_entries_zero_icon entries apps
        (by simpa [Macos.scanOptDir, Macos.scan_directory] using h)

/-- Helper: parsing a Windows registry subkey with icon size `0` never sets
an icon. -/
theorem parse_registry_app_zero_icon (fs : Window.WinFS)
    (k : Window.WinSubkey) (a : AppInfo)
    (h : Window.parse_registry_app fs k 0 = .ok a) : a.icon = none := by
  cases ho : k.openOk with
  | false => simp [Window.parse_registry_app, ho] at h
  | true =>
    cases hd : k.displayName with
    | none => simp [Window.parse_registry_app, ho, hd] at h
    | some dn =>
      simp [Window.parse_registry_app, ho, hd] at h
      simp [← h]

/-- Helper: a Windows registry walk with icon size `0` yields only entries
without an icon. -/
theorem scan_subkeys_zero_icon (fs : Window.WinFS) :
    ∀ ks : List Window.WinSubkey, ∀ a ∈ Window.scan_subkeys fs 0 ks,
      a.icon = none
  | [], a, ha => by simp [Window.scan_subkeys] at ha
  | k :: rest, a, ha => by
    cases hp : Window.parse_registry_app fs k 0 with
    | ok ai =>
      rw [Window.scan_subkeys, hp] at ha
      rcases List.mem_cons.mp ha with rfl | htail
      · exact parse_registry_app_zero_icon fs k a hp
      · exact scan_subkeys_zero_icon fs rest a htail
    | error e =>
      rw [Window.scan_subkeys, hp] at ha
      exact scan_subkeys_zero_icon fs rest a ha

/-- Helper: a whole uninstall-key scan with icon size `0` yields only
entries without an icon. -/
theorem scan_registry_key_zero_icon (fs : Window.WinFS)
    (key : Option (List Window.WinSubkey)) (apps : List AppInfo)
    (h : Window.scan_registry_key fs key 0 = .ok apps) :
    ∀ a ∈ apps, a.icon = none := by
  cases key with
  | none =>
    simp [Window.scan_registry_key] at h
    subst h
    simp
  | some ks =>
    simp [Window.scan_registry_key] at h
    subst h
    exact fun a ha => scan_subkeys_zero_icon fs ks a ha

/-- C8: `get_installed_apps(0)` never sets an icon on either platform —
every `AppInfo` of the returned list has `icon = none`, regardless of what
the filesystem or registry contain. -/
theorem c8_no_icons_at_size_zero (mfs : Macos.MacFS) (wfs : Window.WinFS)
    (reg : Window.WinRegistry) :
    (∀ apps, Macos.get_installed_apps mfs 0 = .ok apps →
        ∀ a ∈ apps, a.icon = none) ∧
    (∀ apps, Window.get_installed_apps wfs reg 0 = .ok apps →
        ∀ a ∈ apps, a.icon = none) := by
  constructor
  · intro apps h a ha
    unfold Macos.get_installed_apps at h
    rcases h1 : Macos.scanOptDir mfs.applications 0 with e | l1
    · rw [h1] at h; simp at h
    rw [h1] at h
    rcases h2 : Macos.scanOptDir mfs.systemApplications 0 with e | l2
    · rw [h2] at h; simp at h
    rw [h2] at h
    rcases h3 : Macos.scanOptDir mfs.userApplications 0 with e | l3
    · rw [h3] at h; simp at h
    rw [h3] at h
    simp at h
    subst h
    rcases List.mem_append.mp ha with hm1 | hm23
    · exact scanOptDir_zero_icon mfs.applications l1 h1 a hm1
    · rcases List.mem_append.mp hm23 with hm2 | hm3
      · exact scanOptDir_zero_icon mfs.systemApplications l2 h2 a hm2
      · exact scanOptDir_zero_icon mfs.userApplications l3 h3 a hm3
  · intro apps h a ha
    unfold Window.get_installed_apps at h
    rcases h1 : Window.scan_registry_key wfs reg.uninstall 0 with e | l1
    · rw [h1] at h; simp at h
    rw [h1] at h
    rcases h2 : Window.scan_registry_key wfs reg.uninstallWow64 0 with e | l2
    · rw [h2] at h; simp at h
    rw [h2] at h
    simp at h
    subst h
    rcases List.mem_append.mp ha with hm1 | hm2
    · exact scan_registry_key_zero_icon wfs reg.uninstall l1 h1 a hm1
    · exact scan_registry_key_zero_icon wfs reg.uninstallWow64 l2 h2 a hm2

/-- C8 (witness): discovery at icon size `0` over a macOS volume with one
good bundle and a Windows registry with one good subkey returns entries
with `icon = none`. -/
theorem c8_no_icons_at_size_zero_witness :
    Fixtures.goodApp.icon = none ∧
    ({ name := "App", version := some "1.0",
       path := "C:\\Program Files\\App\\app.exe", icon := none,
       identifier := none, publisher := some "Acme",
       install_date := some "20240101" } : AppInfo).icon = none :=
  ⟨(c8_no_icons_at_size_zero
      ⟨some (.ok [.ok Fixtures.goodBundle]), none, none⟩
      Fixtures.winFS ⟨some [Fixtures.goodKey], none⟩).1
      [Fixtures.goodApp] rfl Fixtures.goodApp (by simp),
   (c8_no_icons_at_size_zero
      ⟨some (.ok [.ok Fixtures.goodBundle]), none, none⟩
      Fixtures.winFS ⟨some [Fixtures.goodKey], none⟩).2
      [{ name := "App", version := some "1.0",
         path := "C:\\Program Files\\App\\app.exe", icon := none,
         identifier := none, publisher := some "Acme",
         install_date := some "20240101" }] rfl _ (by simp)⟩

/-- C10: during discovery with a positive icon size, a failed icon
extraction does not remove the candidate: on macOS a parseable bundle
whose icon extraction fails parses to exactly the same `AppInfo` as an
icon-less parse, with `icon = none` and the other fields populated as
usual; on Windows a subkey with a display name whose icon extraction
fails likewise still parses successfully with `icon = none`. -/
theorem c10_icon_failure_keeps_app (b : Macos.MacBundle) (v : Macos.PValue)
    (dict : List (String × Macos.PValue)) (sz : Nat)
    (fs : Window.WinFS) (k : Window.WinSubkey) (szw : Nat) :
    (b.plist = .content v → v.as_dictionary = some dict → 0 < sz →
      b.iconOracle sz = none →
      Macos.parse_app_bundle b sz = Macos.parse_app_bundle b 0 ∧
      ∃ a, Macos.parse_app_bundle b sz = .ok a ∧ a.icon = none) ∧
    (k.openOk = true → ∀ dn, k.displayName = some dn → 0 < szw →
      (∀ p, fs.getFileIconOk p szw = none) →
      Window.parse_registry_app fs k szw = Window.parse_registry_app fs k 0 ∧
      ∃ a, Window.parse_registry_app fs k szw = .ok a ∧ a.icon = none) := by
  constructor
  · intro hp hd hsz ho
    have heq : Macos.parse_app_bundle b sz = Macos.parse_app_bundle b 0 := by
      simp [Macos.parse_app_bundle, hp, hd, ho, hsz]
    refine ⟨heq, ?_⟩
    rcases hpar : Macos.parse_app_bundle b 0 with e | a
    · simp [Macos.parse_app_bundle, hp, hd] at hpar
    · exact ⟨a, heq.trans hpar, parse_app_bundle_zero_icon b a hpar⟩
  · intro ho dn hd hsz hfail
    have heq : Window.parse_registry_app fs k szw
        = Window.parse_registry_app fs k 0 := by
      simp [Window.parse_registry_app, ho, hd, hsz, hfail, opt_bind_none]
    refine ⟨heq, ?_⟩
    rcases hpar : Window.parse_registry_app fs k 0 with e | a
    · simp [Window.parse_registry_app, ho, hd] at hpar
    · exact ⟨a, heq.trans hpar, parse_registry_app_zero_icon fs k a hpar⟩

/-- C10 (witness): at icon size `32` with extraction failing everywhere,
the good macOS bundle and the good Windows subkey still parse to the same
icon-less entries as at size `0`. -/
theorem c10_icon_failure_keeps_app_witness :
    (Macos.parse_app_bundle Fixtures.goodBundle 32
        = Macos.parse_app_bundle Fixtures.goodBundle 0 ∧
      ∃ a, Macos.parse_app_bundle Fixtures.goodBundle 32 = .ok a ∧
        a.icon = none) ∧
    (Window.parse_registry_app Fixtures.winFS Fixtures.goodKey 32
        = Window.parse_registry_app Fixtures.winFS Fixtures.goodKey 0 ∧
      ∃ a, Window.parse_registry_app Fixtures.winFS Fixtures.goodKey 32
          = .ok a ∧ a.icon = none) :=
  ⟨(c10_icon_failure_keeps_app Fixtures.goodBundle
      (.dict [("CFBundleDisplayName", .str "Good"),
              ("CFBundleIdentifier", .str "com.example.good")])
      [("CFBundleDisplayName", .str "Good"),
       ("CFBundleIdentifier", .str "com.example.good")] 32
      Fixtures.winFS Fixtures.goodKey 32).1 rfl rfl (by decide) rfl,
   (c10_icon_failure_keeps_app Fixtures.goodBundle
      (.dict [("CFBundleDisplayName", .str "Good"),
              ("CFBundleIdentifier", .str "com.example.good")])
      [("CFBundleDisplayName", .str "Good"),
       ("CFBundleIdentifier", .str "com.example.good")] 32
      Fixtures.winFS Fixtures.goodKey 32).2 rfl "App" rfl (by decide)
      (fun _ => rfl)⟩

end AppInfoCrate
